import Mathlib

/-!
Shallow embedding of the authenticated HTTP service-client framework
(`src/lib/api`): the retry/classification pipeline of `BaseApiFactory`
(`core/api-factory.ts`), the `BearerTokenStrategy` of
`auth/auth-strategies.ts`, the `ApiClient` service registry, and the
`PostsService` cache and batch operations (`posts/posts-service.ts`).

Modelling conventions:
* `async` methods become pure functions; an awaited transport call becomes a
  function from the attempt index to its outcome, and an awaited write becomes
  an explicit `Except` outcome passed in.
* Thrown errors become `Except` / explicit error values; the error classes of
  `api-factory.ts` become the inductive `ErrKind` (their `message` string
  formatting is elided; the HTTP status each class fixes is kept).
* The interceptor chain is modelled explicitly: `setupInterceptors` makes the
  response interceptor reject with `this.handleError(error)`, so the value
  caught inside `request` is the classified plain `Error`, not the raw
  `AxiosError` — `CaughtError` distinguishes the two shapes, and the catch
  site applies `handleErrorOn` / `shouldRetry` to the plain value.
* JavaScript's `x || d` on an optional number (where both `undefined` and `0`
  are falsy) becomes `orDefault`.
* Milliseconds and timestamps are `Nat`.
-/

namespace Spec2Proof

/-- The closed error taxonomy of `api-factory.ts`: one constructor per error
class thrown by `BaseApiFactory.handleError`. -/
inductive ErrKind where
  | badRequest
  | unauthorized
  | forbidden
  | notFound
  | validation
  | rateLimit
  | internalServer
  | generic (status : Nat)
  | network
  | requestErr
deriving DecidableEq, Repr

/-- The HTTP status each error class carries: the specific subclasses pin
their status in their constructor (`super(message, 400, data)` etc.), the
generic `ApiError` carries the status it was given, and
`NetworkError` / `RequestError` extend plain `Error` and carry none. -/
def ErrKind.status : ErrKind → Option Nat
  | .badRequest => some 400
  | .unauthorized => some 401
  | .forbidden => some 403
  | .notFound => some 404
  | .validation => some 422
  | .rateLimit => some 429
  | .internalServer => some 500
  | .generic s => some s
  | .network => none
  | .requestErr => none

/-- Shape of an `AxiosError` as inspected by `handleError` / `shouldRetry`:
either a response was received (with its status), or a request was made but no
response arrived (`error.request` set), or not even a request was made. -/
inductive TransportFailure where
  | withResponse (status : Nat)
  | noResponse
  | noRequest
deriving DecidableEq, Repr

/-- Outcome of one transport attempt (`this.axiosInstance.request`). -/
inductive TransportResult where
  | ok (data : String)
  | fail (f : TransportFailure)
deriving DecidableEq, Repr

namespace BaseApiFactory

/-- The `switch (status)` inside `handleError` for the `error.response`
branch. -/
def classifyStatus (status : Nat) : ErrKind :=
  if status = 400 then .badRequest
  else if status = 401 then .unauthorized
  else if status = 403 then .forbidden
  else if status = 404 then .notFound
  else if status = 422 then .validation
  else if status = 429 then .rateLimit
  else if status = 500 then .internalServer
  else .generic status

/-- `BaseApiFactory.handleError` as evaluated on a raw `AxiosError`:
response present → status switch; request without response → `NetworkError`;
otherwise → `RequestError`.  This is the application performed by the
response interceptor installed in `setupInterceptors`, which rejects with
`this.handleError(error)` — so the value the `request` catch block receives
is the classified plain `Error`, not the raw `AxiosError`. -/
def handleError : TransportFailure → ErrKind
  | .withResponse status => classifyStatus status
  | .noResponse => .network
  | .noRequest => .requestErr

end BaseApiFactory

/-- An error value as `request`'s catch block can see it: either a raw
`AxiosError` or a plain already-classified `Error` (what the response
interceptor actually rejects with).  A plain `Error` carries neither a
`.response` nor a `.request` field; the `as AxiosError` cast in the catch
block has no runtime effect. -/
inductive CaughtError where
  | axios (f : TransportFailure)
  | plain (k : ErrKind)
deriving DecidableEq, Repr

/-- The `error.response.status` of a caught value, when a `.response` is
attached: only a raw `AxiosError` that received a response has one. -/
def CaughtError.responseStatus : CaughtError → Option Nat
  | .axios (.withResponse status) => some status
  | _ => none

/-- Whether `error.request` is attached: only on a raw `AxiosError` whose
request was actually sent. -/
def CaughtError.hasRequest : CaughtError → Bool
  | .axios (.withResponse _) => true
  | .axios .noResponse => true
  | _ => false

namespace BaseApiFactory

/-- The body of `BaseApiFactory.handleError` evaluated on an arbitrary
caught value (it only inspects `error.response` and `error.request`): for
every plain already-classified `Error` both fields are absent, so it falls
through to the `RequestError` branch whatever the wrapped classification
was. -/
def handleErrorOn (e : CaughtError) : ErrKind :=
  match e.responseStatus with
  | some status => classifyStatus status
  | none => if e.hasRequest then .network else .requestErr

/-- `BaseApiFactory.shouldRetry`: `if (!error.response) return true;` then
`status >= 500 || status === 429`.  A plain classified `Error` — the only
kind of value the catch block ever passes in — has no `.response`, so the
status test is dead there and the function returns true. -/
def shouldRetry (e : CaughtError) : Bool :=
  match e.responseStatus with
  | none => true
  | some status => decide (500 ≤ status) || decide (status = 429)

/-- JavaScript `x || d` on `number | undefined`: both `undefined` and `0` are
falsy and fall through to the default. -/
def orDefault (x : Option Nat) (d : Nat) : Nat :=
  match x with
  | some n => if n = 0 then d else n
  | none => d

instance {α β : Type} [DecidableEq α] [DecidableEq β] : DecidableEq (Except α β) :=
  fun a b =>
    match a, b with
    | .error x, .error y =>
      if h : x = y then .isTrue (by simp [h]) else .isFalse (by simp [h])
    | .error _, .ok _ => .isFalse (by simp)
    | .ok _, .error _ => .isFalse (by simp)
    | .ok x, .ok y =>
      if h : x = y then .isTrue (by simp [h]) else .isFalse (by simp [h])

/-- Result of one logical `request` call: how many transport attempts were
made, the final outcome, and the backoff delays waited (in order). -/
structure RunResult where
  attempts : Nat
  outcome : Except ErrKind String
  delays : List Nat
deriving DecidableEq, Repr

/-- The body of `BaseApiFactory.request`'s `for (let attempt = 0; attempt <=
retries; attempt++)` loop, with `fuel = retries + 1 - attempt` as the
structural measure (so `attempt < retries` is `0 < fuel - 1`, i.e. `0 < f`
after matching `fuel = f + 1`).  A failing transport attempt rejects through
the response interceptor, which classifies the raw failure and rejects with
the resulting plain `Error`: the catch block therefore receives
`CaughtError.plain (handleError e)`, not the raw `AxiosError`.  It stores
`handleErrorOn` of that caught value as `lastError` (always a
`RequestError`, since a plain `Error` has neither `.response` nor
`.request`), retries when attempts remain and `shouldRetry` accepts the
caught value (it always does, for the same reason), waiting
`retryDelay * 2 ^ attempt`, and otherwise throws `lastError`.  The
`fuel = 0` case mirrors the trailing `throw lastError!` after the loop,
unreachable from the initial `fuel = retries + 1 ≥ 1`. -/
def requestGo (transport : Nat → TransportResult) (rdelay : Nat) :
    Nat → Nat → List Nat → Option ErrKind → RunResult
  | 0, attempt, ds, lastError =>
    { attempts := attempt, outcome := .error (lastError.getD .requestErr), delays := ds }
  | f + 1, attempt, ds, _ =>
    match transport attempt with
    | .ok d => { attempts := attempt + 1, outcome := .ok d, delays := ds }
    | .fail e =>
      if 0 < f ∧ shouldRetry (.plain (handleError e)) then
        requestGo transport rdelay f (attempt + 1)
          (ds ++ [rdelay * 2 ^ attempt]) (some (handleErrorOn (.plain (handleError e))))
      else
        { attempts := attempt + 1,
          outcome := .error (handleErrorOn (.plain (handleError e))), delays := ds }

/-- `BaseApiFactory.request`: resolves `retries` as
`config?.retries || this.config.retries || 3` and the backoff base as
`this.config.retryDelay || 1000`, then runs the attempt loop from
`attempt = 0`. -/
def request (transport : Nat → TransportResult)
    (perCallRetries cfgRetries cfgRetryDelay : Option Nat) : RunResult :=
  let retries := orDefault perCallRetries (orDefault cfgRetries 3)
  let rdelay := orDefault cfgRetryDelay 1000
  requestGo transport rdelay (retries + 1) 0 [] none

end BaseApiFactory

/-- The `Post` record of `post-types.ts` (JSONPlaceholder shape). -/
structure Post where
  userId : Nat
  id : Nat
  title : String
  body : String
deriving DecidableEq, Repr

namespace PostsService

/-- The mutable fields of `PostsService` relevant to caching, together with a
counter of transport calls issued (each awaited `this.get` that reaches the
transport bumps it). -/
structure State where
  postsCache : Option (List Post)
  cacheTimestamp : Nat
  transportCalls : Nat
deriving DecidableEq, Repr

/-- `CACHE_DURATION = 5 * 60 * 1000` (5 minutes, in milliseconds). -/
def CACHE_DURATION : Nat := 5 * 60 * 1000

/-- `isCacheValid`: cache present and `Date.now() - cacheTimestamp <
CACHE_DURATION`.  Truncated `Nat` subtraction agrees with JavaScript's signed
subtraction here: when `now < cacheTimestamp` both evaluate the comparison to
true. -/
def isCacheValid (s : State) (now : Nat) : Bool :=
  s.postsCache.isSome && decide (now - s.cacheTimestamp < CACHE_DURATION)

/-- `updateCache`: store the posts and stamp the current time. -/
def updateCache (s : State) (posts : List Post) (now : Nat) : State :=
  { s with postsCache := some posts, cacheTimestamp := now }

/-- `clearCache`: drop the cached posts and zero the timestamp. -/
def clearCache (s : State) : State :=
  { s with postsCache := none, cacheTimestamp := 0 }

/-- `getAllPosts(useCache)`: serve `this.postsCache!` when `useCache` holds
and the cache is valid; otherwise issue the transport fetch (whose payload is
the `fetched` argument) and cache the result. -/
def getAllPosts (s : State) (useCache : Bool) (now : Nat) (fetched : List Post) :
    List Post × State :=
  if useCache && isCacheValid s now then (s.postsCache.getD [], s)
  else
    (fetched, updateCache { s with transportCalls := s.transportCalls + 1 } fetched now)

/-- `createPost`: `await this.post(...)` then `this.clearCache()`.  The
awaited write is abstracted by its outcome; a rejected write throws before
`clearCache()` is reached, so the cache is cleared only on success. -/
def createPost (s : State) (writeOutcome : Except ErrKind Post) :
    Except ErrKind Post × State :=
  match writeOutcome with
  | .ok newPost => (.ok newPost, clearCache s)
  | .error e => (.error e, s)

/-- `updatePost`: `await this.put(...)` then `this.clearCache()`, with the
same throw-before-clear behaviour as `createPost`. -/
def updatePost (s : State) (writeOutcome : Except ErrKind Post) :
    Except ErrKind Post × State :=
  match writeOutcome with
  | .ok updatedPost => (.ok updatedPost, clearCache s)
  | .error e => (.error e, s)

/-- The `BatchPostResponse` record of `post-types.ts` (its optional `data`
field is always set by `batchFetchPosts`, so it is kept as a plain list). -/
structure BatchPostResponse where
  success : Bool
  processedCount : Nat
  failedCount : Nat
  data : List Post
  errors : Option (List String)
deriving DecidableEq, Repr

/-- One iteration of the `for (const postId of request.postIds)` loop of
`batchFetchPosts`: a successful `getPostById` pushes onto `results`, a caught
error pushes its message onto `errors`.  `fetchById` abstracts the awaited
per-id fetch, returning the thrown error's message on failure. -/
def batchStep (fetchById : Nat → Except String Post)
    (acc : List Post × List String) (postId : Nat) : List Post × List String :=
  match fetchById postId with
  | .ok post => (acc.1 ++ [post], acc.2)
  | .error msg =>
    (acc.1, acc.2 ++ ["Failed to fetch post " ++ toString postId ++ ": " ++ msg])

/-- `batchFetchPosts`: run the loop over all requested ids, then assemble the
response: `success` iff no errors, counts from the two accumulators, `errors`
attached only when nonempty. -/
def batchFetchPosts (fetchById : Nat → Except String Post) (postIds : List Nat) :
    BatchPostResponse :=
  let r := postIds.foldl (batchStep fetchById) ([], [])
  { success := decide (r.2.length = 0)
    processedCount := r.1.length
    failedCount := r.2.length
    data := r.1
    errors := if 0 < r.2.length then some r.2 else none }

/-- The successful payload of one id's fetch, if any (used to state what the
batch loop accumulates). -/
def fetchedOk (fetchById : Nat → Except String Post) (i : Nat) : Option Post :=
  match fetchById i with
  | .ok post => some post
  | .error _ => none

/-- The formatted error message of one id's fetch, if it failed. -/
def fetchedErr (fetchById : Nat → Except String Post) (i : Nat) : Option String :=
  match fetchById i with
  | .ok _ => none
  | .error msg => some ("Failed to fetch post " ++ toString i ++ ": " ++ msg)

end PostsService

/-- In-place replacement of the value under key `k`: the identity on entries
under other keys. -/
def setKey (k v : String) (p : String × String) : String × String :=
  if p.1 == k then (k, v) else p

/-- JavaScript object spread `{ ...headers, [key]: value }`: an existing key
keeps its position and gets the new value, a new key is appended. -/
def upsert (hs : List (String × String)) (k v : String) : List (String × String) :=
  if hs.any (fun p => p.1 == k) then hs.map (setKey k v)
  else hs ++ [(k, v)]

/-- The part of an `AxiosRequestConfig` the bearer strategy touches. -/
structure RequestCfg where
  headers : List (String × String)
deriving DecidableEq, Repr

/-- JavaScript truthiness of a `string | null` value: non-null and
non-empty. -/
def truthy : Option String → Bool
  | none => false
  | some t => decide (t ≠ "")

/-- The fields of `BearerTokenStrategy`.  The supplier callback `tokenGetter`
is modelled as a pure function of its invocation index, and `getterCalls`
counts how often it has been invoked. -/
structure BearerTokenStrategy where
  token : Option String
  tokenGetter : Option (Nat → Option String)
  getterCalls : Nat

namespace BearerTokenStrategy

/-- `getToken`: `if (this.token) return this.token;` then invoke the supplier
(caching whatever it returns, even `null` or `""`), else `null`. -/
def getToken (s : BearerTokenStrategy) : Option String × BearerTokenStrategy :=
  if truthy s.token then (s.token, s)
  else
    match s.tokenGetter with
    | some g =>
      (g s.getterCalls, { s with token := g s.getterCalls, getterCalls := s.getterCalls + 1 })
    | none => (none, s)

/-- `applyAuth`: resolve the token; when truthy, spread an `Authorization:
Bearer <token>` header over the existing headers; otherwise return the
request unchanged. -/
def applyAuth (s : BearerTokenStrategy) (c : RequestCfg) :
    RequestCfg × BearerTokenStrategy :=
  let r := s.getToken
  if truthy r.1 then
    ({ headers := upsert c.headers "Authorization" ("Bearer " ++ r.1.getD "") }, r.2)
  else (c, r.2)

/-- `isValid`: `token !== null && token.length > 0`. -/
def isValid (s : BearerTokenStrategy) : Bool × BearerTokenStrategy :=
  let r := s.getToken
  (match r.1 with
   | none => false
   | some t => decide (0 < t.length), r.2)

/-- `refresh`: re-invoke the supplier when present. -/
def refresh (s : BearerTokenStrategy) : BearerTokenStrategy :=
  match s.tokenGetter with
  | some g => { s with token := g s.getterCalls, getterCalls := s.getterCalls + 1 }
  | none => s

/-- `clear`: drop the cached token. -/
def clear (s : BearerTokenStrategy) : BearerTokenStrategy :=
  { s with token := none }

end BearerTokenStrategy

/-- `ApiClient`'s registry state (`service-registry.ts`): constructed service
instances are identified by the value of a construction counter (`nextId`),
so "the same instance" is "the same identifier"; `serviceFactories` holds the
names with a registered factory. -/
structure ApiClient where
  services : List (String × Nat)
  serviceFactories : List String
  nextId : Nat
deriving DecidableEq, Repr

namespace ApiClient

/-- `getService`: return the cached instance when present; otherwise, when a
factory is registered, construct a fresh instance, cache it and return it;
otherwise `null`. -/
def getService (c : ApiClient) (name : String) : Option Nat × ApiClient :=
  match c.services.lookup name with
  | some inst => (some inst, c)
  | none =>
    if name ∈ c.serviceFactories then
      (some c.nextId,
       { c with services := (name, c.nextId) :: c.services, nextId := c.nextId + 1 })
    else (none, c)

/-- `reset()`: `this.services.clear()` — instances dropped, factories kept. -/
def reset (c : ApiClient) : ApiClient :=
  { c with services := [] }

end ApiClient

/-- When every attempt fails with the same failure — any failure, since the
catch block always sees a plain classified `Error` and therefore always
retries — the loop burns all its fuel: starting at `attempt` with
`fuel = k + 1` it makes `k + 1` further attempts, ends with the doubly
classified `RequestError`, and appends the backoff delays for attempt
indices `attempt, …, attempt + k - 1`. -/
theorem BaseApiFactory.requestGo_const_fail (transport : Nat → TransportResult)
    (e : TransportFailure) (ht : ∀ n, transport n = .fail e) (rdelay : Nat) :
    ∀ (k attempt : Nat) (ds : List Nat) (le : Option ErrKind),
      requestGo transport rdelay (k + 1) attempt ds le =
        { attempts := attempt + k + 1, outcome := .error .requestErr,
          delays := ds ++ (List.range' attempt k).map (fun i => rdelay * 2 ^ i) } := by
  have hretry : shouldRetry (.plain (handleError e)) = true := rfl
  have hclass : handleErrorOn (.plain (handleError e)) = .requestErr := rfl
  intro k
  induction k with
  | zero =>
    intro attempt ds le
    simp [requestGo, ht, hclass]
  | succ k ih =>
    intro attempt ds le
    rw [requestGo]
    simp only [ht]
    rw [if_pos ⟨Nat.succ_pos k, hretry⟩, ih]
    simp [List.range'_succ]
    omega

/-- For any transport behaviour, the delays waited by the loop extend the
accumulator with `rdelay * 2 ^ i` for consecutive attempt indices starting at
the current one: the `i`-th wait is always the exponential-backoff value for
attempt `i`. -/
theorem BaseApiFactory.requestGo_delays_shape (transport : Nat → TransportResult)
    (rdelay : Nat) :
    ∀ (fuel attempt : Nat) (ds : List Nat) (le : Option ErrKind),
      ∃ m, (requestGo transport rdelay fuel attempt ds le).delays =
        ds ++ (List.range' attempt m).map (fun i => rdelay * 2 ^ i) := by
  intro fuel
  induction fuel with
  | zero =>
    intro attempt ds le
    exact ⟨0, by simp [requestGo]⟩
  | succ f ih =>
    intro attempt ds le
    rw [requestGo]
    cases h : transport attempt with
    | ok d => exact ⟨0, by simp⟩
    | fail e =>
      by_cases hc : 0 < f ∧ shouldRetry (.plain (handleError e)) = true
      · obtain ⟨m, hm⟩ := ih (attempt + 1) (ds ++ [rdelay * 2 ^ attempt])
          (some (handleErrorOn (.plain (handleError e))))
        exact ⟨m + 1, by simp only [if_pos hc]; simp [hm, List.range'_succ]⟩
      · exact ⟨0, by simp [if_neg hc]⟩

/-- Claim C1, as stated, is false on two counts.  First, `request` resolves
the retry budget with `config?.retries || this.config.retries || 3`, and
JavaScript `||` treats a configured `0` as falsy, so a configured retry
count of `0` falls back to the default of `3`: with every attempt failing
without a response, the pipeline makes 4 attempts, not `0 + 1 = 1`.  Second,
the final thrown error is not a `NetworkError`: the response interceptor
rejects with the classified `NetworkError`, and the catch block's second
`handleError` pass sees that plain `Error` (no `.response`, no `.request`)
and wraps it as a `RequestError` — shown here at a configured retry count of
2. -/
theorem C1_counterexample :
    ((BaseApiFactory.request (fun _ => .fail .noResponse) none (some 0) none).attempts = 4 ∧
     ¬ (BaseApiFactory.request (fun _ => .fail .noResponse) none (some 0) none).attempts
        = 0 + 1) ∧
    ((BaseApiFactory.request (fun _ => .fail .noResponse) none (some 2) none).outcome =
       .error .requestErr ∧
     ¬ (BaseApiFactory.request (fun _ => .fail .noResponse) none (some 2) none).outcome =
       .error .network) := by
  decide

/-- Claim C1 (amended): when every transport attempt fails with no response
and the configured retry count `r` is nonzero (JavaScript `||` treats a
configured `0` as unset and falls back to the default of 3), the pipeline
makes exactly `r + 1` attempts; the final thrown error is a `RequestError`,
not a `NetworkError` — the response interceptor classifies each raw failure
as a `NetworkError`, but the catch block re-applies `handleError` to that
already-classified plain `Error`, which has neither `.response` nor
`.request`, and throws the resulting `RequestError`. -/
theorem C1_retry_exhaustion (transport : Nat → TransportResult)
    (ht : ∀ n, transport n = .fail .noResponse) (r : Nat) (hr : r ≠ 0)
    (cfgDelay : Option Nat) :
    (BaseApiFactory.request transport none (some r) cfgDelay).attempts = r + 1 ∧
    (BaseApiFactory.request transport none (some r) cfgDelay).outcome =
      .error .requestErr := by
  have hres : BaseApiFactory.orDefault none (BaseApiFactory.orDefault (some r) 3) = r := by
    simp [BaseApiFactory.orDefault, hr]
  have h := BaseApiFactory.requestGo_const_fail transport .noResponse ht
    (BaseApiFactory.orDefault cfgDelay 1000) r 0 [] none
  simp only [BaseApiFactory.request]
  rw [hres, h]
  simp

/-- Witness for `C1_retry_exhaustion` at `r = 2`. -/
theorem C1_retry_exhaustion_witness :
    (∀ n : Nat, (fun _ : Nat => TransportResult.fail .noResponse) n = .fail .noResponse) ∧
    (2 : Nat) ≠ 0 ∧
    ((BaseApiFactory.request (fun _ => .fail .noResponse) none (some 2) none).attempts = 2 + 1 ∧
     (BaseApiFactory.request (fun _ => .fail .noResponse) none (some 2) none).outcome =
       .error .requestErr) :=
  ⟨fun _ => rfl, by decide,
   C1_retry_exhaustion (fun _ => .fail .noResponse) (fun _ => rfl) 2 (by decide) none⟩

/-- Claim C3: the pipeline's error classification maps each of the seven
special statuses to its named error class, every other received status to the
generic `ApiError` carrying that status, a request without a response to
`NetworkError`, and the no-request case to `RequestError`. -/
theorem C3_error_classification :
    BaseApiFactory.handleError (.withResponse 400) = .badRequest ∧
    BaseApiFactory.handleError (.withResponse 401) = .unauthorized ∧
    BaseApiFactory.handleError (.withResponse 403) = .forbidden ∧
    BaseApiFactory.handleError (.withResponse 404) = .notFound ∧
    BaseApiFactory.handleError (.withResponse 422) = .validation ∧
    BaseApiFactory.handleError (.withResponse 429) = .rateLimit ∧
    BaseApiFactory.handleError (.withResponse 500) = .internalServer ∧
    (∀ s : Nat, s ∉ ([400, 401, 403, 404, 422, 429, 500] : List Nat) →
       BaseApiFactory.handleError (.withResponse s) = .generic s ∧
       (BaseApiFactory.handleError (.withResponse s)).status = some s) ∧
    BaseApiFactory.handleError .noResponse = .network ∧
    BaseApiFactory.handleError .noRequest = .requestErr := by
  refine ⟨by decide, by decide, by decide, by decide, by decide, by decide, by decide,
    ?_, rfl, rfl⟩
  intro s hs
  simp only [List.mem_cons, List.not_mem_nil, or_false, not_or] at hs
  obtain ⟨h1, h2, h3, h4, h5, h6, h7⟩ := hs
  constructor <;>
    simp [BaseApiFactory.handleError, BaseApiFactory.classifyStatus, ErrKind.status,
      h1, h2, h3, h4, h5, h6, h7]

/-- Witness for `C3_error_classification`: the generic branch at status 418. -/
theorem C3_error_classification_witness :
    (418 : Nat) ∉ ([400, 401, 403, 404, 422, 429, 500] : List Nat) ∧
    (BaseApiFactory.handleError (.withResponse 418) = .generic 418 ∧
     (BaseApiFactory.handleError (.withResponse 418)).status = some 418) :=
  ⟨by decide, (C3_error_classification.2.2.2.2.2.2.2.1) 418 (by decide)⟩

/-- Claim C4, as stated, is false for a configured `retryDelay` of `0`: the
delay is computed as `(this.config.retryDelay || 1000) * 2 ** attempt`, and
JavaScript `||` treats `0` as falsy, so the waits use the default base of
1000 ms instead of `0 * 2 ^ (n - 1) = 0`. -/
theorem C4_counterexample :
    (BaseApiFactory.request (fun _ => .fail .noResponse) none none (some 0)).delays =
      [1000, 2000, 4000] ∧
    (BaseApiFactory.request (fun _ => .fail .noResponse) none none (some 0)).delays ≠
      [0, 0, 0] := by
  decide

/-- Claim C4 (amended to a nonzero configured `retryDelay`): in every retry
sequence, whatever the transport outcomes and retry configuration, the `n`-th
wait performed (n ≥ 1) is exactly `retryDelay * 2 ^ (n - 1)` — no jitter and
no cap. -/
theorem C4_backoff_delays (transport : Nat → TransportResult)
    (pc cR : Option Nat) (D : Nat) (hD : D ≠ 0) (n : Nat) (h1 : 1 ≤ n) (v : Nat)
    (hv : (BaseApiFactory.request transport pc cR (some D)).delays[n - 1]? = some v) :
    v = D * 2 ^ (n - 1) := by
  obtain ⟨m, hm⟩ := BaseApiFactory.requestGo_delays_shape transport
    (BaseApiFactory.orDefault (some D) 1000)
    (BaseApiFactory.orDefault pc (BaseApiFactory.orDefault cR 3) + 1) 0 [] none
  have hD' : BaseApiFactory.orDefault (some D) 1000 = D := by
    simp [BaseApiFactory.orDefault, hD]
  simp only [BaseApiFactory.request] at hv
  rw [hm, hD', List.nil_append, List.getElem?_map] at hv
  by_cases hlt : n - 1 < m
  · rw [List.getElem?_range' 0 1 hlt] at hv
    simpa using hv.symm
  · rw [List.getElem?_eq_none (by simpa using Nat.le_of_not_lt hlt)] at hv
    simp at hv

/-- Witness for `C4_backoff_delays`: with `retryDelay = 100` and the default
retry budget, the second wait is `100 * 2 ^ 1 = 200` ms. -/
theorem C4_backoff_delays_witness :
    (100 : Nat) ≠ 0 ∧ (1 : Nat) ≤ 2 ∧
    (BaseApiFactory.request (fun _ => .fail .noResponse) none none (some 100)).delays[2 - 1]? =
      some 200 ∧
    (200 : Nat) = 100 * 2 ^ (2 - 1) :=
  ⟨by decide, by decide, by decide,
   C4_backoff_delays (fun _ => .fail .noResponse) none none 100 (by decide) 2 (by decide)
     200 (by decide)⟩

/-- Claim C5 evaluated at its failing input: with every attempt answered by
a 404 response and the default configuration (the budget resolves to 3), the
pipeline makes 4 transport calls, not exactly one, and finally throws a
`RequestError`.  The status-based part of `shouldRetry` (commented "Server
errors or rate limiting" in the source) is dead at the catch site: the catch
block receives the interceptor-classified `NotFoundError` as a plain `Error`
with no `.response`, so `if (!error.response) return true` fires for every
failure and a 400/404 response is retried like any other. -/
theorem C5_404_retried :
    (BaseApiFactory.request (fun _ => .fail (.withResponse 404)) none none none).attempts = 4 ∧
    ¬ (BaseApiFactory.request (fun _ => .fail (.withResponse 404)) none none none).attempts
       = 1 ∧
    (BaseApiFactory.request (fun _ => .fail (.withResponse 404)) none none none).outcome =
      .error .requestErr := by
  decide

/-- Claim C2, as stated, is false: `createPost` runs `this.clearCache()` only
after the awaited write resolves, so a rejected write propagates before the
cache is touched.  Concretely, with a valid cached entry and a failing write,
the cache survives and the next `getAllPosts` within the window is served
from cache without a transport call (the call counter stays at 1). -/
theorem C2_counterexample :
    (PostsService.createPost (PostsService.State.mk (some [Post.mk 1 1 "t" "b"]) 0 1)
        (.error .network)).2.postsCache ≠ none ∧
    (PostsService.getAllPosts
        (PostsService.createPost (PostsService.State.mk (some [Post.mk 1 1 "t" "b"]) 0 1)
            (.error .network)).2
        true 1000 []).2.transportCalls = 1 := by
  decide

/-- Claim C2 (amended): a successful `createPost` or `updatePost` clears the
posts cache, so the next `getAllPosts` performs a live fetch; a failed write
propagates its error and leaves the service state — cache included —
unchanged. -/
theorem C2_cache_invalidation (s : PostsService.State) (p : Post) (e : ErrKind)
    (now : Nat) (fetched : List Post) :
    (PostsService.createPost s (.ok p)).2.postsCache = none ∧
    (PostsService.updatePost s (.ok p)).2.postsCache = none ∧
    (PostsService.getAllPosts (PostsService.createPost s (.ok p)).2
        true now fetched).2.transportCalls = s.transportCalls + 1 ∧
    (PostsService.getAllPosts (PostsService.updatePost s (.ok p)).2
        true now fetched).2.transportCalls = s.transportCalls + 1 ∧
    (PostsService.createPost s (.error e)).2 = s ∧
    (PostsService.updatePost s (.error e)).2 = s := by
  refine ⟨rfl, rfl, ?_, ?_, rfl, rfl⟩ <;>
    simp [PostsService.createPost, PostsService.updatePost, PostsService.getAllPosts,
      PostsService.clearCache, PostsService.updateCache, PostsService.isCacheValid]

/-- Claim C6: a cold `getAllPosts(useCache = true)` fetches; a second call
within `CACHE_DURATION` is served from the cache (same state, cached payload,
no new transport call); a call at or past `CACHE_DURATION` fetches again; and
`clearCache()` followed by `getAllPosts` always fetches, whatever the prior
cache state. -/
theorem C6_cache_roundtrip (s : PostsService.State) (t1 t2 t3 : Nat)
    (p1 f2 f3 : List Post)
    (hcold : PostsService.isCacheValid s t1 = false)
    (h12 : t2 - t1 < PostsService.CACHE_DURATION)
    (h13 : PostsService.CACHE_DURATION ≤ t3 - t1) :
    (PostsService.getAllPosts s true t1 p1).2.transportCalls = s.transportCalls + 1 ∧
    PostsService.getAllPosts (PostsService.getAllPosts s true t1 p1).2 true t2 f2 =
      (p1, (PostsService.getAllPosts s true t1 p1).2) ∧
    (PostsService.getAllPosts (PostsService.getAllPosts s true t1 p1).2
        true t3 f3).2.transportCalls = s.transportCalls + 2 ∧
    (∀ (s' : PostsService.State) (now : Nat) (f : List Post),
       (PostsService.getAllPosts (PostsService.clearCache s') true now f).2.transportCalls =
         s'.transportCalls + 1) := by
  have h13' : ¬ t3 - t1 < PostsService.CACHE_DURATION := Nat.not_lt.mpr h13
  have h1 : PostsService.getAllPosts s true t1 p1 =
      (p1, { postsCache := some p1, cacheTimestamp := t1,
             transportCalls := s.transportCalls + 1 }) := by
    simp [PostsService.getAllPosts, PostsService.updateCache, hcold]
  refine ⟨?_, ?_, ?_, ?_⟩
  · rw [h1]
  · rw [h1]
    simp [PostsService.getAllPosts, PostsService.isCacheValid, h12]
  · rw [h1]
    simp [PostsService.getAllPosts, PostsService.isCacheValid, PostsService.updateCache, h13']
  · intro s' now f
    simp [PostsService.getAllPosts, PostsService.clearCache, PostsService.updateCache,
      PostsService.isCacheValid]

/-- Witness for `C6_cache_roundtrip`: cold start at `t1 = 0`, cache hit at
`t2 = 1000`, expiry at `t3 = 300000`. -/
theorem C6_cache_roundtrip_witness :
    PostsService.isCacheValid (PostsService.State.mk none 0 0) 0 = false ∧
    (1000 : Nat) - 0 < PostsService.CACHE_DURATION ∧
    PostsService.CACHE_DURATION ≤ (300000 : Nat) - 0 ∧
    ((PostsService.getAllPosts (PostsService.State.mk none 0 0) true 0
        [Post.mk 1 1 "t" "b"]).2.transportCalls = 0 + 1 ∧
     PostsService.getAllPosts
         (PostsService.getAllPosts (PostsService.State.mk none 0 0) true 0
           [Post.mk 1 1 "t" "b"]).2 true 1000 [] =
       ([Post.mk 1 1 "t" "b"],
        (PostsService.getAllPosts (PostsService.State.mk none 0 0) true 0
          [Post.mk 1 1 "t" "b"]).2) ∧
     (PostsService.getAllPosts
         (PostsService.getAllPosts (PostsService.State.mk none 0 0) true 0
           [Post.mk 1 1 "t" "b"]).2 true 300000 []).2.transportCalls = 0 + 2 ∧
     (∀ (s' : PostsService.State) (now : Nat) (f : List Post),
        (PostsService.getAllPosts (PostsService.clearCache s') true now f).2.transportCalls =
          s'.transportCalls + 1)) :=
  ⟨by decide, by decide, by decide,
   C6_cache_roundtrip (PostsService.State.mk none 0 0) 0 1000 300000
     [Post.mk 1 1 "t" "b"] [] [] (by decide) (by decide) (by decide)⟩

/-- `setKey` rewrites an entry under the written key to the new pair. -/
theorem setKey_of_eq (k v : String) (p : String × String) (h : p.1 = k) :
    setKey k v p = (k, v) := by
  simp [setKey, h]

/-- `setKey` leaves an entry under another key alone. -/
theorem setKey_of_ne (k v : String) (p : String × String) (h : ¬ p.1 = k) :
    setKey k v p = p := by
  simp [setKey, h]

/-- Entries whose key differs from `k` are untouched by the in-place
replacement `map` of `upsert`. -/
theorem filter_ne_map_set (k v : String) :
    ∀ hs : List (String × String),
      (hs.map (setKey k v)).filter (fun p => !(p.1 == k)) =
        hs.filter (fun p => !(p.1 == k)) := by
  intro hs
  induction hs with
  | nil => rfl
  | cons p hs ih =>
    rw [List.map_cons, List.filter_cons, List.filter_cons, ih]
    by_cases hp : p.1 = k
    · rw [setKey_of_eq k v p hp]
      simp [hp]
    · rw [setKey_of_ne k v p hp]

/-- A list without key `k` contributes nothing to the key-`k` filter, even
after the in-place replacement `map`. -/
theorem filter_eq_map_set_of_not_mem (k v : String) :
    ∀ hs : List (String × String), k ∉ hs.map Prod.fst →
      (hs.map (setKey k v)).filter (fun p => p.1 == k) = [] := by
  intro hs
  induction hs with
  | nil => intro _; rfl
  | cons p hs ih =>
    intro h
    rw [List.map_cons] at h
    simp only [List.mem_cons, not_or] at h
    have hp : ¬ p.1 = k := fun hh => h.1 hh.symm
    rw [List.map_cons, setKey_of_ne k v p hp, List.filter_cons, ih h.2]
    simp [hp]

/-- With key-distinct entries, the in-place replacement keeps exactly one
entry under the written key, holding the written value. -/
theorem filter_eq_map_set_of_mem (k v : String) :
    ∀ hs : List (String × String), (hs.map Prod.fst).Nodup →
      hs.any (fun p => p.1 == k) = true →
      (hs.map (setKey k v)).filter (fun p => p.1 == k) = [(k, v)] := by
  intro hs
  induction hs with
  | nil => intro _ h; simp at h
  | cons p hs ih =>
    intro hnodup hany
    rw [List.map_cons, List.nodup_cons] at hnodup
    rw [List.map_cons, List.filter_cons]
    by_cases hp : p.1 = k
    · have hnm : k ∉ hs.map Prod.fst := by rw [← hp]; exact hnodup.1
      rw [setKey_of_eq k v p hp, filter_eq_map_set_of_not_mem k v hs hnm]
      simp
    · have hany' : hs.any (fun p => p.1 == k) = true := by
        rcases List.any_eq_true.mp hany with ⟨q, hq, hqk⟩
        rcases List.mem_cons.mp hq with rfl | hq'
        · exact absurd (by simpa using hqk) hp
        · exact List.any_eq_true.mpr ⟨q, hq', hqk⟩
      rw [setKey_of_ne k v p hp, ih hnodup.2 hany']
      simp [hp]

/-- With key-distinct headers, `upsert` leaves exactly one entry under the
written key, holding the written value. -/
theorem upsert_filter_eq (hs : List (String × String)) (k v : String)
    (hnodup : (hs.map Prod.fst).Nodup) :
    (upsert hs k v).filter (fun p => p.1 == k) = [(k, v)] := by
  unfold upsert
  by_cases h : hs.any (fun p => p.1 == k) = true
  · rw [if_pos h]
    exact filter_eq_map_set_of_mem k v hs hnodup h
  · rw [if_neg h, List.filter_append]
    have h0 : hs.filter (fun p => p.1 == k) = [] := by
      rw [List.filter_eq_nil_iff]
      intro p hp hpk
      exact h (List.any_eq_true.mpr ⟨p, hp, hpk⟩)
    rw [h0]
    simp

/-- Entries under other keys are untouched by `upsert`. -/
theorem upsert_filter_ne (hs : List (String × String)) (k v : String) :
    (upsert hs k v).filter (fun p => !(p.1 == k)) = hs.filter (fun p => !(p.1 == k)) := by
  unfold upsert
  by_cases h : hs.any (fun p => p.1 == k) = true
  · rw [if_pos h]
    exact filter_ne_map_set k v hs
  · rw [if_neg h, List.filter_append]
    simp

/-- After an `upsert` the key is present. -/
theorem upsert_any (hs : List (String × String)) (k v : String) :
    (upsert hs k v).any (fun p => p.1 == k) = true := by
  unfold upsert
  by_cases h : hs.any (fun p => p.1 == k) = true
  · rw [if_pos h]
    rcases List.any_eq_true.mp h with ⟨p, hp, hpk⟩
    refine List.any_eq_true.mpr ⟨setKey k v p, List.mem_map.mpr ⟨p, hp, rfl⟩, ?_⟩
    rw [setKey_of_eq k v p (by simpa using hpk)]
    simp
  · rw [if_neg h]
    simp

/-- The in-place replacement `map` of `upsert` is idempotent. -/
theorem map_set_map_set (k v : String) :
    ∀ hs : List (String × String),
      (hs.map (setKey k v)).map (setKey k v) = hs.map (setKey k v) := by
  intro hs
  induction hs with
  | nil => rfl
  | cons p hs ih =>
    rw [List.map_cons, List.map_cons, ih]
    by_cases hp : p.1 = k
    · rw [setKey_of_eq k v p hp, setKey_of_eq k v (k, v) rfl]
    · rw [setKey_of_ne k v p hp, setKey_of_ne k v p hp]

/-- A list without the key is unchanged by the in-place replacement `map`. -/
theorem map_set_of_not_any (k v : String) :
    ∀ hs : List (String × String), ¬ hs.any (fun p => p.1 == k) = true →
      hs.map (setKey k v) = hs := by
  intro hs
  induction hs with
  | nil => intro _; rfl
  | cons p hs ih =>
    intro h
    rw [List.any_cons] at h
    simp only [Bool.or_eq_true, not_or] at h
    have hp : ¬ p.1 = k := by simpa using h.1
    rw [List.map_cons, setKey_of_ne k v p hp, ih h.2]

/-- `upsert` is idempotent. -/
theorem upsert_upsert (hs : List (String × String)) (k v : String) :
    upsert (upsert hs k v) k v = upsert hs k v := by
  have hany := upsert_any hs k v
  conv_lhs => rw [upsert]
  rw [if_pos hany]
  by_cases h : hs.any (fun p => p.1 == k) = true
  · rw [upsert, if_pos h, map_set_map_set k v hs]
  · rw [upsert, if_neg h, List.map_append, map_set_of_not_any k v hs h]
    simp [setKey_of_eq k v (k, v) rfl]

/-- Claim C7: with a held (non-empty) token, `applyAuth` adds exactly one
`Authorization: Bearer <token>` header and leaves every other header
unchanged; the strategy state is untouched; applying it twice equals applying
it once; and with no credential at all (no token, no supplier) the request is
returned unchanged — no header added and nothing thrown. -/
theorem C7_bearer_applyAuth (s : BearerTokenStrategy) (c : RequestCfg) (t : String)
    (htok : s.token = some t) (hne : t ≠ "")
    (hnodup : (c.headers.map Prod.fst).Nodup) :
    (s.applyAuth c).1.headers.filter (fun p => p.1 == "Authorization") =
      [("Authorization", "Bearer " ++ t)] ∧
    (s.applyAuth c).1.headers.filter (fun p => !(p.1 == "Authorization")) =
      c.headers.filter (fun p => !(p.1 == "Authorization")) ∧
    (s.applyAuth c).2 = s ∧
    (s.applyAuth c).2.applyAuth (s.applyAuth c).1 = s.applyAuth c ∧
    (∀ (c' : RequestCfg) (n : Nat),
       (BearerTokenStrategy.mk none none n).applyAuth c' =
         (c', BearerTokenStrategy.mk none none n)) := by
  have happ : s.applyAuth c =
      ({ headers := upsert c.headers "Authorization" ("Bearer " ++ t) }, s) := by
    simp [BearerTokenStrategy.applyAuth, BearerTokenStrategy.getToken, truthy, htok, hne]
  refine ⟨?_, ?_, ?_, ?_, ?_⟩
  · rw [happ]
    exact upsert_filter_eq c.headers _ _ hnodup
  · rw [happ]
    exact upsert_filter_ne c.headers _ _
  · rw [happ]
  · rw [happ]
    simp [BearerTokenStrategy.applyAuth, BearerTokenStrategy.getToken, truthy, htok, hne,
      upsert_upsert]
  · intro c' n
    simp [BearerTokenStrategy.applyAuth, BearerTokenStrategy.getToken, truthy]

/-- Witness for `C7_bearer_applyAuth`: a strategy holding `"tok"` applied to
a request with one `Accept` header. -/
theorem C7_bearer_applyAuth_witness :
    (BearerTokenStrategy.mk (some "tok") none 0).token = some "tok" ∧
    ("tok" ≠ "") ∧
    ((RequestCfg.mk [("Accept", "application/json")]).headers.map Prod.fst).Nodup ∧
    (((BearerTokenStrategy.mk (some "tok") none 0).applyAuth
          (RequestCfg.mk [("Accept", "application/json")])).1.headers.filter
        (fun p => p.1 == "Authorization") = [("Authorization", "Bearer " ++ "tok")] ∧
     ((BearerTokenStrategy.mk (some "tok") none 0).applyAuth
          (RequestCfg.mk [("Accept", "application/json")])).1.headers.filter
        (fun p => !(p.1 == "Authorization")) =
       (RequestCfg.mk [("Accept", "application/json")]).headers.filter
        (fun p => !(p.1 == "Authorization")) ∧
     ((BearerTokenStrategy.mk (some "tok") none 0).applyAuth
          (RequestCfg.mk [("Accept", "application/json")])).2 =
       BearerTokenStrategy.mk (some "tok") none 0 ∧
     ((BearerTokenStrategy.mk (some "tok") none 0).applyAuth
          (RequestCfg.mk [("Accept", "application/json")])).2.applyAuth
         ((BearerTokenStrategy.mk (some "tok") none 0).applyAuth
           (RequestCfg.mk [("Accept", "application/json")])).1 =
       (BearerTokenStrategy.mk (some "tok") none 0).applyAuth
         (RequestCfg.mk [("Accept", "application/json")]) ∧
     (∀ (c' : RequestCfg) (n : Nat),
        (BearerTokenStrategy.mk none none n).applyAuth c' =
          (c', BearerTokenStrategy.mk none none n))) :=
  ⟨rfl, by decide, by decide,
   C7_bearer_applyAuth (BearerTokenStrategy.mk (some "tok") none 0)
     (RequestCfg.mk [("Accept", "application/json")]) "tok" rfl (by decide) (by decide)⟩

/-- Claim C8, as stated, is false: `getToken` caches whatever the supplier
returns, but guards the cache with JavaScript truthiness, so a supplier that
yields `null` (or `""`) is re-invoked on every subsequent resolution.  With a
constant-`null` supplier, two `applyAuth` calls invoke the supplier twice,
not once. -/
theorem C8_counterexample :
    ((((BearerTokenStrategy.mk none (some (fun _ => none)) 0).applyAuth
          (RequestCfg.mk [])).2.applyAuth (RequestCfg.mk [])).2.getterCalls = 2) ∧
    ((((BearerTokenStrategy.mk none (some (fun _ => none)) 0).applyAuth
          (RequestCfg.mk [])).2.applyAuth (RequestCfg.mk [])).2.getterCalls ≠ 1) := by
  exact ⟨rfl, by decide⟩

/-- Claim C8 (amended): when the supplier's first invocation yields a
non-empty token, the first `applyAuth` invokes it exactly once and caches the
token; and any strategy holding a non-empty cached token is left completely
unchanged by `applyAuth` and `isValid` — in particular the supplier is not
invoked again until `refresh()` or `clear()` discards the cached value. -/
theorem C8_lazy_token_caching (g : Nat → Option String) (t : String) (c : RequestCfg)
    (hg : g 0 = some t) (ht : t ≠ "") :
    ((BearerTokenStrategy.mk none (some g) 0).applyAuth c).2.getterCalls = 1 ∧
    ((BearerTokenStrategy.mk none (some g) 0).applyAuth c).2.token = some t ∧
    (∀ (s : BearerTokenStrategy) (c' : RequestCfg) (u : String),
       s.token = some u → u ≠ "" →
       (s.applyAuth c').2 = s ∧ s.isValid.2 = s) := by
  refine ⟨?_, ?_, ?_⟩
  · simp [BearerTokenStrategy.applyAuth, BearerTokenStrategy.getToken, truthy, hg, ht]
  · simp [BearerTokenStrategy.applyAuth, BearerTokenStrategy.getToken, truthy, hg, ht]
  · intro s c' u hu hne
    constructor
    · simp [BearerTokenStrategy.applyAuth, BearerTokenStrategy.getToken, truthy, hu, hne]
    · simp [BearerTokenStrategy.isValid, BearerTokenStrategy.getToken, truthy, hu, hne]

/-- Witness for `C8_lazy_token_caching`: a constant supplier returning
`"tok"`. -/
theorem C8_lazy_token_caching_witness :
    ((fun _ : Nat => some "tok") 0 = some "tok") ∧ ("tok" ≠ "") ∧
    (((BearerTokenStrategy.mk none (some (fun _ => some "tok")) 0).applyAuth
         (RequestCfg.mk [])).2.getterCalls = 1 ∧
     ((BearerTokenStrategy.mk none (some (fun _ => some "tok")) 0).applyAuth
         (RequestCfg.mk [])).2.token = some "tok" ∧
     (∀ (s : BearerTokenStrategy) (c' : RequestCfg) (u : String),
        s.token = some u → u ≠ "" →
        (s.applyAuth c').2 = s ∧ s.isValid.2 = s)) :=
  ⟨rfl, by decide,
   C8_lazy_token_caching (fun _ => some "tok") "tok" (RequestCfg.mk []) rfl (by decide)⟩

/-- Claim C9: for a name registered with a factory and not yet constructed,
`getService` constructs an instance once and every repeated call returns that
same instance without touching the registry state; `reset()` drops all cached
instances while leaving the factory registrations intact, so the next
`getService` constructs a fresh instance (distinct from the first) via the
factory. -/
theorem C9_service_registry (c : ApiClient) (name : String)
    (hs : c.services.lookup name = none) (hf : name ∈ c.serviceFactories) :
    (c.getService name).1 = some c.nextId ∧
    (c.getService name).2.getService name = (some c.nextId, (c.getService name).2) ∧
    ((c.getService name).2.reset.serviceFactories = c.serviceFactories ∧
     (c.getService name).2.reset.services = []) ∧
    ((c.getService name).2.reset.getService name).1 = some (c.nextId + 1) ∧
    c.nextId + 1 ≠ c.nextId := by
  have h1 : c.getService name =
      (some c.nextId,
       { c with services := (name, c.nextId) :: c.services, nextId := c.nextId + 1 }) := by
    rw [ApiClient.getService, hs, if_pos hf]
  refine ⟨by rw [h1], ?_, ?_, ?_, by omega⟩
  · rw [h1, ApiClient.getService]
    simp [List.lookup]
  · rw [h1]
    exact ⟨rfl, rfl⟩
  · rw [h1, ApiClient.reset, ApiClient.getService]
    simp [List.lookup, hf]

/-- Witness for `C9_service_registry`: an empty registry with one factory
registered under the name `"posts"`. -/
theorem C9_service_registry_witness :
    (ApiClient.mk [] ["posts"] 0).services.lookup "posts" = none ∧
    "posts" ∈ (ApiClient.mk [] ["posts"] 0).serviceFactories ∧
    (((ApiClient.mk [] ["posts"] 0).getService "posts").1 = some 0 ∧
     ((ApiClient.mk [] ["posts"] 0).getService "posts").2.getService "posts" =
       (some 0, ((ApiClient.mk [] ["posts"] 0).getService "posts").2) ∧
     (((ApiClient.mk [] ["posts"] 0).getService "posts").2.reset.serviceFactories =
        (ApiClient.mk [] ["posts"] 0).serviceFactories ∧
      ((ApiClient.mk [] ["posts"] 0).getService "posts").2.reset.services = []) ∧
     (((ApiClient.mk [] ["posts"] 0).getService "posts").2.reset.getService "posts").1 =
       some (0 + 1) ∧
     (0 : Nat) + 1 ≠ 0) :=
  ⟨rfl, by decide,
   C9_service_registry (ApiClient.mk [] ["posts"] 0) "posts" rfl (by decide)⟩

/-- `fetchedOk` on a successful fetch. -/
theorem fetchedOk_of_ok (fetchById : Nat → Except String Post) (i : Nat) (post : Post)
    (h : fetchById i = .ok post) : PostsService.fetchedOk fetchById i = some post := by
  simp [PostsService.fetchedOk, h]

/-- `fetchedOk` on a failed fetch. -/
theorem fetchedOk_of_error (fetchById : Nat → Except String Post) (i : Nat) (msg : String)
    (h : fetchById i = .error msg) : PostsService.fetchedOk fetchById i = none := by
  simp [PostsService.fetchedOk, h]

/-- `fetchedErr` on a successful fetch. -/
theorem fetchedErr_of_ok (fetchById : Nat → Except String Post) (i : Nat) (post : Post)
    (h : fetchById i = .ok post) : PostsService.fetchedErr fetchById i = none := by
  simp [PostsService.fetchedErr, h]

/-- `fetchedErr` on a failed fetch. -/
theorem fetchedErr_of_error (fetchById : Nat → Except String Post) (i : Nat) (msg : String)
    (h : fetchById i = .error msg) :
    PostsService.fetchedErr fetchById i =
      some ("Failed to fetch post " ++ toString i ++ ": " ++ msg) := by
  simp [PostsService.fetchedErr, h]

/-- The batch loop splits its accumulators by the outcome of each id's fetch:
successful payloads in order, and one formatted message per failing id. -/
theorem batchStep_foldl_spec (fetchById : Nat → Except String Post) :
    ∀ (ids : List Nat) (acc : List Post × List String),
      ids.foldl (PostsService.batchStep fetchById) acc =
        (acc.1 ++ ids.filterMap (PostsService.fetchedOk fetchById),
         acc.2 ++ ids.filterMap (PostsService.fetchedErr fetchById)) := by
  intro ids
  induction ids with
  | nil => intro acc; simp
  | cons i ids ih =>
    intro acc
    rw [List.foldl_cons, ih, List.filterMap_cons, List.filterMap_cons]
    cases h : fetchById i with
    | ok post =>
      rw [fetchedOk_of_ok fetchById i post h, fetchedErr_of_ok fetchById i post h]
      simp [PostsService.batchStep, h]
    | error msg =>
      rw [fetchedOk_of_error fetchById i msg h, fetchedErr_of_error fetchById i msg h]
      simp [PostsService.batchStep, h]

/-- Every requested id lands in exactly one of the two accumulators, so the
two lengths always sum to the number of ids. -/
theorem batch_counts (fetchById : Nat → Except String Post) :
    ∀ ids : List Nat,
      (ids.filterMap (PostsService.fetchedOk fetchById)).length +
        (ids.filterMap (PostsService.fetchedErr fetchById)).length = ids.length := by
  intro ids
  induction ids with
  | nil => rfl
  | cons i ids ih =>
    rw [List.filterMap_cons, List.filterMap_cons]
    cases h : fetchById i with
    | ok post =>
      rw [fetchedOk_of_ok fetchById i post h, fetchedErr_of_ok fetchById i post h]
      simp only [List.length_cons]
      omega
    | error msg =>
      rw [fetchedOk_of_error fetchById i msg h, fetchedErr_of_error fetchById i msg h]
      simp only [List.length_cons]
      omega

/-- Claim C10: every `batchFetchPosts` response satisfies `processedCount +
failedCount = |postIds|`; `success` holds exactly when nothing failed; the
`errors` field is attached exactly when something failed; and the returned
data is the ordered list of all successful fetches — a per-id failure never
aborts the remaining fetches. -/
theorem C10_batch_invariants (fetchById : Nat → Except String Post) (postIds : List Nat) :
    (PostsService.batchFetchPosts fetchById postIds).processedCount +
        (PostsService.batchFetchPosts fetchById postIds).failedCount = postIds.length ∧
    ((PostsService.batchFetchPosts fetchById postIds).success = true ↔
        (PostsService.batchFetchPosts fetchById postIds).failedCount = 0) ∧
    ((PostsService.batchFetchPosts fetchById postIds).errors.isSome = true ↔
        0 < (PostsService.batchFetchPosts fetchById postIds).failedCount) ∧
    (PostsService.batchFetchPosts fetchById postIds).data =
      postIds.filterMap (PostsService.fetchedOk fetchById) := by
  have hspec := batchStep_foldl_spec fetchById postIds ([], [])
  have hcounts := batch_counts fetchById postIds
  refine ⟨?_, ?_, ?_, ?_⟩
  · simp only [PostsService.batchFetchPosts, hspec, List.nil_append]
    exact hcounts
  · simp [PostsService.batchFetchPosts, hspec]
  · simp only [PostsService.batchFetchPosts, hspec, List.nil_append]
    by_cases h : 0 < (postIds.filterMap (PostsService.fetchedErr fetchById)).length
    · simp [if_pos h, h]
    · simp [if_neg h, h]
  · simp [PostsService.batchFetchPosts, hspec]

end Spec2Proof
